import Mathlib

/-!
# Verification of the `bias_analytics` statistical estimation layer

Shallow embedding of `bias_analysis/metrics.py`, `bias_analysis/contingency.py`
and `bias_analysis/logistic.py`.

Modelling conventions:
* Python `float` arithmetic is idealized as exact arithmetic: the count-level
  arithmetic (which drives every branch in the source) is carried out in `ℚ`,
  and the transcendental parts (`math.sqrt`, `math.log`, `math.exp`,
  `scipy.stats.norm.ppf`) produce values in `ℝ`.
* Python `float("nan")` outputs are represented as `none : Option ℝ`;
  finite outputs as `some x`.
* Python exceptions (`ZeroDivisionError` from float division by zero,
  `ValueError` from `math.sqrt` / `math.log` domain errors and from explicit
  `raise ValueError`) are represented with `Except PyErr`.
* `scipy.stats.norm.ppf` is external library code; it is modelled by
  `stdNormQuantile`, the generalized inverse of the standard normal CDF
  `stdNormalCDF`, written as a Gaussian integral.
-/

open MeasureTheory

/-- Python exceptions relevant to the estimation layer. -/
inductive PyErr where
  | zeroDivision
  | valueError
deriving Repr, DecidableEq

/-- Python float division `x / y`: raises `ZeroDivisionError` when `y == 0`. -/
def pydiv (x y : ℚ) : Except PyErr ℚ :=
  if y = 0 then .error .zeroDivision else .ok (x / y)

/-- `Contingency2x2` from `bias_analysis/contingency.py`: four non-negative
integer counts (`a` exposed & event, `b` exposed & no-event, `c` unexposed &
event, `d` unexposed & no-event). -/
structure Contingency2x2 where
  a : ℕ
  b : ℕ
  c : ℕ
  d : ℕ
deriving Repr, DecidableEq

/-- `_apply_cc` from `bias_analysis/metrics.py`: if `min(a,b,c,d) == 0` and no
correction is supplied, return NaNs (modelled as `none`); if a correction `cc`
is supplied and the minimum is zero, add `cc` to all four counts; otherwise
return the raw counts as floats. -/
def apply_cc (t : Contingency2x2) (cc : Option ℚ) : Option (ℚ × ℚ × ℚ × ℚ) :=
  if min (min t.a t.b) (min t.c t.d) = 0 then
    match cc with
    | none => none
    | some k => some ((t.a : ℚ) + k, (t.b : ℚ) + k, (t.c : ℚ) + k, (t.d : ℚ) + k)
  else
    some ((t.a : ℚ), (t.b : ℚ), (t.c : ℚ), (t.d : ℚ))

/-- The standard normal CDF, modelling the distribution underlying
`scipy.stats.norm`: `Φ(x) = (∫_{-∞}^x e^{-t²/2} dt) / √(2π)`. -/
noncomputable def stdNormalCDF (x : ℝ) : ℝ :=
  (∫ t in Set.Iic x, Real.exp (-(2⁻¹ : ℝ) * t ^ 2)) / Real.sqrt (2 * Real.pi)

/-- The standard normal quantile function, modelling `scipy.stats.norm.ppf`
(external library code): the generalized inverse of `stdNormalCDF`. -/
noncomputable def stdNormQuantile (p : ℝ) : ℝ :=
  sInf {x : ℝ | p ≤ stdNormalCDF x}

/-- `_z` from `bias_analysis/metrics.py`: the standard-normal quantile for
`1 - alpha/2`. -/
noncomputable def z_of (alpha : ℚ) : ℝ :=
  stdNormQuantile (1 - (alpha : ℝ) / 2)

/-- Result mapping of `odds_ratio_and_ci`; `none` models `float("nan")`. -/
structure ORResult where
  odds_ratio : Option ℝ
  odds_ratio_ci_low : Option ℝ
  odds_ratio_ci_high : Option ℝ
  alpha : ℚ
  continuity_correction : Option ℚ

/-- The all-NaN odds-ratio result. -/
def ORResult.nan (alpha : ℚ) (cc : Option ℚ) : ORResult :=
  ⟨none, none, none, alpha, cc⟩

/-- `odds_ratio_and_ci` from `bias_analysis/metrics.py`, with the source's
evaluation order: apply the continuity-correction policy, return NaNs when the
corrected counts are NaN or `b == 0` or `c == 0`, then compute
`or_ = (a*d)/(b*c)`, `se = sqrt(1/a+1/b+1/c+1/d)` (raising `ZeroDivisionError`
on a zero denominator and `ValueError` on a negative radicand, as Python
does), and the Wald interval `exp(log or_ ∓ z*se)` (raising `ValueError` when
`or_ <= 0`). -/
noncomputable def odds_ratio_and_ci (t : Contingency2x2) (alpha : ℚ) (cc : Option ℚ) :
    Except PyErr ORResult :=
  match apply_cc t cc with
  | none => .ok (ORResult.nan alpha cc)
  | some (a, b, c, d) =>
    if b = 0 ∨ c = 0 then .ok (ORResult.nan alpha cc)
    else do
      let orv ← pydiv (a * d) (b * c)
      let ia ← pydiv 1 a
      let ib ← pydiv 1 b
      let ic ← pydiv 1 c
      let idd ← pydiv 1 d
      let s := ia + ib + ic + idd
      if s < 0 then .error .valueError
      else if orv ≤ 0 then .error .valueError
      else
        let se : ℝ := Real.sqrt (s : ℝ)
        let z : ℝ := z_of alpha
        .ok ⟨some ((orv : ℝ)),
             some (Real.exp (Real.log (orv : ℝ) - z * se)),
             some (Real.exp (Real.log (orv : ℝ) + z * se)),
             alpha, cc⟩

/-- Result mapping of `relative_risk_and_ci`; `none` models `float("nan")`. -/
structure RRResult where
  relative_risk : Option ℝ
  relative_risk_ci_low : Option ℝ
  relative_risk_ci_high : Option ℝ
  alpha : ℚ
  continuity_correction : Option ℚ

/-- The all-NaN relative-risk result. -/
def RRResult.nan (alpha : ℚ) (cc : Option ℚ) : RRResult :=
  ⟨none, none, none, alpha, cc⟩

/-- `relative_risk_and_ci` from `bias_analysis/metrics.py`: NaN when the
corrected counts are NaN or either group total is `<= 0` or the unexposed risk
is `<= 0`; otherwise `rr = (a/(a+b))/(c/(c+d))` with the Katz log-scale
standard error `sqrt(1/a - 1/(a+b) + 1/c - 1/(c+d))`, with Python's division
and domain errors in the source's evaluation order. -/
noncomputable def relative_risk_and_ci (t : Contingency2x2) (alpha : ℚ) (cc : Option ℚ) :
    Except PyErr RRResult :=
  match apply_cc t cc with
  | none => .ok (RRResult.nan alpha cc)
  | some (a, b, c, d) =>
    if a + b ≤ 0 ∨ c + d ≤ 0 then .ok (RRResult.nan alpha cc)
    else do
      let risk_exp ← pydiv a (a + b)
      let risk_unexp ← pydiv c (c + d)
      if risk_unexp ≤ 0 then .ok (RRResult.nan alpha cc)
      else do
        let rr ← pydiv risk_exp risk_unexp
        let ia ← pydiv 1 a
        let iab ← pydiv 1 (a + b)
        let ic ← pydiv 1 c
        let icd ← pydiv 1 (c + d)
        let s := ia - iab + ic - icd
        if s < 0 then .error .valueError
        else if rr ≤ 0 then .error .valueError
        else
          let se : ℝ := Real.sqrt (s : ℝ)
          let z : ℝ := z_of alpha
          .ok ⟨some ((rr : ℝ)),
               some (Real.exp (Real.log (rr : ℝ) - z * se)),
               some (Real.exp (Real.log (rr : ℝ) + z * se)),
               alpha, cc⟩

/-- Result mapping of `rate_ratio_and_ci`; `none` models `float("nan")`. -/
structure RateResult where
  rate_ratio : Option ℝ
  rate_ratio_ci_low : Option ℝ
  rate_ratio_ci_high : Option ℝ
  alpha : ℚ
  continuity_correction : Option ℚ

/-- The all-NaN rate-ratio result. -/
def RateResult.nan (alpha : ℚ) (cc : Option ℚ) : RateResult :=
  ⟨none, none, none, alpha, cc⟩

/-- The tail of `rate_ratio_and_ci` after the zero-event/continuity-correction
policy has fixed the (possibly corrected) event counts `e1`, `e0`. -/
noncomputable def rate_ratio_core (e1 e0 time_exposed time_unexposed : ℚ)
    (alpha : ℚ) (cc : Option ℚ) : Except PyErr RateResult := do
  let r1 ← pydiv e1 time_exposed
  let r0 ← pydiv e0 time_unexposed
  if r0 ≤ 0 then .ok (RateResult.nan alpha cc)
  else do
    let rr ← pydiv r1 r0
    let i1 ← pydiv 1 e1
    let i0 ← pydiv 1 e0
    let s := i1 + i0
    if s < 0 then .error .valueError
    else if rr ≤ 0 then .error .valueError
    else
      let se : ℝ := Real.sqrt (s : ℝ)
      let z : ℝ := z_of alpha
      .ok ⟨some ((rr : ℝ)),
           some (Real.exp (Real.log (rr : ℝ) - z * se)),
           some (Real.exp (Real.log (rr : ℝ) + z * se)),
           alpha, cc⟩

/-- `rate_ratio_and_ci` from `bias_analysis/metrics.py`: raises `ValueError`
when a person-time is `<= 0` or an event count is negative; with a zero event
count the result is all-NaN unless a continuity correction is supplied, in
which case the correction is added to both event counts before computing the
rates. -/
noncomputable def rate_ratio_and_ci (events_exposed : ℤ) (time_exposed : ℚ)
    (events_unexposed : ℤ) (time_unexposed : ℚ) (alpha : ℚ) (cc : Option ℚ) :
    Except PyErr RateResult :=
  if time_exposed ≤ 0 ∨ time_unexposed ≤ 0 then .error .valueError
  else if events_exposed < 0 ∨ events_unexposed < 0 then .error .valueError
  else if events_exposed = 0 ∨ events_unexposed = 0 then
    match cc with
    | none => .ok (RateResult.nan alpha cc)
    | some k =>
      rate_ratio_core ((events_exposed : ℚ) + k) ((events_unexposed : ℚ) + k)
        time_exposed time_unexposed alpha cc
  else
    rate_ratio_core (events_exposed : ℚ) (events_unexposed : ℚ)
      time_exposed time_unexposed alpha cc

/-! ## Facts about the standard normal CDF and quantile -/

lemma gauss_integrable : Integrable (fun t : ℝ => Real.exp (-(2⁻¹ : ℝ) * t ^ 2)) :=
  integrable_exp_neg_mul_sq (by norm_num)

lemma sqrt_two_pi_pos : 0 < Real.sqrt (2 * Real.pi) :=
  Real.sqrt_pos.mpr (by positivity)

lemma gauss_integral_total :
    ∫ t : ℝ, Real.exp (-(2⁻¹ : ℝ) * t ^ 2) = Real.sqrt (2 * Real.pi) := by
  rw [integral_gaussian]
  congr 1
  ring

lemma gauss_integral_Iic_zero :
    ∫ t in Set.Iic (0 : ℝ), Real.exp (-(2⁻¹ : ℝ) * t ^ 2) = Real.sqrt (2 * Real.pi) / 2 := by
  have h := integral_comp_neg_Iic (0 : ℝ) fun t => Real.exp (-(2⁻¹ : ℝ) * t ^ 2)
  simp only [neg_sq, neg_zero] at h
  rw [h, integral_gaussian_Ioi]
  congr 2
  ring

lemma stdNormalCDF_nonneg (x : ℝ) : 0 ≤ stdNormalCDF x := by
  unfold stdNormalCDF
  refine div_nonneg ?_ (Real.sqrt_nonneg _)
  exact setIntegral_nonneg measurableSet_Iic fun t _ => (Real.exp_pos _).le

lemma stdNormalCDF_mono {x y : ℝ} (h : x ≤ y) : stdNormalCDF x ≤ stdNormalCDF y := by
  unfold stdNormalCDF
  gcongr
  exact setIntegral_mono_set gauss_integrable.integrableOn
    (ae_of_all _ fun t => (Real.exp_pos _).le)
    (HasSubset.Subset.eventuallyLE (Set.Iic_subset_Iic.mpr h))

lemma stdNormalCDF_zero : stdNormalCDF 0 = 1 / 2 := by
  unfold stdNormalCDF
  rw [gauss_integral_Iic_zero, div_right_comm, div_self sqrt_two_pi_pos.ne']

lemma stdNormalCDF_le_one (x : ℝ) : stdNormalCDF x ≤ 1 := by
  unfold stdNormalCDF
  rw [div_le_one sqrt_two_pi_pos]
  calc (∫ t in Set.Iic x, Real.exp (-(2⁻¹ : ℝ) * t ^ 2))
      ≤ ∫ t : ℝ, Real.exp (-(2⁻¹ : ℝ) * t ^ 2) :=
        setIntegral_le_integral gauss_integrable (ae_of_all _ fun t => (Real.exp_pos _).le)
    _ = Real.sqrt (2 * Real.pi) := gauss_integral_total

lemma stdNormQuantile_nonneg {p : ℝ} (hp : 1 / 2 < p) : 0 ≤ stdNormQuantile p := by
  refine Real.sInf_nonneg fun x hx => ?_
  by_contra hneg
  push_neg at hneg
  have hle : stdNormalCDF x ≤ 1 / 2 := stdNormalCDF_zero ▸ stdNormalCDF_mono hneg.le
  have : p ≤ stdNormalCDF x := hx
  linarith

lemma z_of_nonneg {alpha : ℚ} (h1 : alpha < 1) : 0 ≤ z_of alpha := by
  refine stdNormQuantile_nonneg ?_
  have : (alpha : ℝ) < 1 := by exact_mod_cast h1
  linarith

/-! ## Branch characterizations of `apply_cc` and the estimators -/

lemma minCell_eq_zero_iff {t : Contingency2x2} :
    min (min t.a t.b) (min t.c t.d) = 0 ↔ t.a = 0 ∨ t.b = 0 ∨ t.c = 0 ∨ t.d = 0 := by
  simp [Nat.min_eq_zero_iff, or_assoc]

lemma apply_cc_zero_none {t : Contingency2x2}
    (h : t.a = 0 ∨ t.b = 0 ∨ t.c = 0 ∨ t.d = 0) : apply_cc t none = none := by
  unfold apply_cc
  rw [if_pos (minCell_eq_zero_iff.mpr h)]

lemma apply_cc_zero_some {t : Contingency2x2} (k : ℚ)
    (h : t.a = 0 ∨ t.b = 0 ∨ t.c = 0 ∨ t.d = 0) :
    apply_cc t (some k) =
      some ((t.a : ℚ) + k, (t.b : ℚ) + k, (t.c : ℚ) + k, (t.d : ℚ) + k) := by
  unfold apply_cc
  rw [if_pos (minCell_eq_zero_iff.mpr h)]

lemma apply_cc_nonzero {t : Contingency2x2} (cc : Option ℚ)
    (h : ¬(t.a = 0 ∨ t.b = 0 ∨ t.c = 0 ∨ t.d = 0)) :
    apply_cc t cc = some ((t.a : ℚ), (t.b : ℚ), (t.c : ℚ), (t.d : ℚ)) := by
  unfold apply_cc
  rw [if_neg fun hm => h (minCell_eq_zero_iff.mp hm)]

lemma apply_cc_nonneg {t : Contingency2x2} {cc : Option ℚ} {a b c d : ℚ}
    (hcc : cc = none ∨ ∃ k, cc = some k ∧ 0 ≤ k)
    (h : apply_cc t cc = some (a, b, c, d)) : 0 ≤ a ∧ 0 ≤ b ∧ 0 ≤ c ∧ 0 ≤ d := by
  unfold apply_cc at h
  by_cases hmin : min (min t.a t.b) (min t.c t.d) = 0
  · rw [if_pos hmin] at h
    rcases hcc with rfl | ⟨k, rfl, hk⟩
    · exact absurd h (by simp)
    · simp only [Option.some.injEq, Prod.mk.injEq] at h
      obtain ⟨h1, h2, h3, h4⟩ := h
      subst h1; subst h2; subst h3; subst h4
      refine ⟨?_, ?_, ?_, ?_⟩ <;> exact add_nonneg (Nat.cast_nonneg _) hk
  · rw [if_neg hmin] at h
    simp only [Option.some.injEq, Prod.mk.injEq] at h
    obtain ⟨h1, h2, h3, h4⟩ := h
    subst h1; subst h2; subst h3; subst h4
    exact ⟨Nat.cast_nonneg _, Nat.cast_nonneg _, Nat.cast_nonneg _, Nat.cast_nonneg _⟩

lemma apply_cc_pos {t : Contingency2x2} {cc : Option ℚ} {a b c d : ℚ}
    (hcc : cc = none ∨ ∃ k, cc = some k ∧ 0 < k)
    (h : apply_cc t cc = some (a, b, c, d)) : 0 < a ∧ 0 < b ∧ 0 < c ∧ 0 < d := by
  unfold apply_cc at h
  by_cases hmin : min (min t.a t.b) (min t.c t.d) = 0
  · rw [if_pos hmin] at h
    rcases hcc with rfl | ⟨k, rfl, hk⟩
    · exact absurd h (by simp)
    · simp only [Option.some.injEq, Prod.mk.injEq] at h
      obtain ⟨h1, h2, h3, h4⟩ := h
      subst h1; subst h2; subst h3; subst h4
      refine ⟨?_, ?_, ?_, ?_⟩ <;>
        exact add_pos_of_nonneg_of_pos (Nat.cast_nonneg _) hk
  · rw [if_neg hmin] at h
    simp only [Option.some.injEq, Prod.mk.injEq] at h
    obtain ⟨h1, h2, h3, h4⟩ := h
    subst h1; subst h2; subst h3; subst h4
    rw [minCell_eq_zero_iff] at hmin
    push_neg at hmin
    obtain ⟨ha, hb, hc, hd⟩ := hmin
    exact ⟨Nat.cast_pos.mpr (Nat.pos_of_ne_zero ha),
           Nat.cast_pos.mpr (Nat.pos_of_ne_zero hb),
           Nat.cast_pos.mpr (Nat.pos_of_ne_zero hc),
           Nat.cast_pos.mpr (Nat.pos_of_ne_zero hd)⟩

lemma odds_ratio_success {t : Contingency2x2} {alpha : ℚ} {cc : Option ℚ} {a b c d : ℚ}
    (h : apply_cc t cc = some (a, b, c, d))
    (ha : 0 < a) (hb : 0 < b) (hc : 0 < c) (hd : 0 < d) :
    odds_ratio_and_ci t alpha cc =
      .ok ⟨some (((a * d) / (b * c) : ℚ) : ℝ),
           some (Real.exp (Real.log (((a * d) / (b * c) : ℚ) : ℝ) -
             z_of alpha * Real.sqrt (((1 / a + 1 / b + 1 / c + 1 / d : ℚ) : ℝ)))),
           some (Real.exp (Real.log (((a * d) / (b * c) : ℚ) : ℝ) +
             z_of alpha * Real.sqrt (((1 / a + 1 / b + 1 / c + 1 / d : ℚ) : ℝ)))),
           alpha, cc⟩ := by
  have hbc : ¬(b * c = 0) := mul_ne_zero hb.ne' hc.ne'
  have hs : ¬((1 / a + 1 / b + 1 / c + 1 / d : ℚ) < 0) := not_lt.mpr (by positivity)
  have hor : ¬((a * d) / (b * c) ≤ 0) := not_le.mpr (by positivity)
  simp only [odds_ratio_and_ci, h, pydiv, if_neg hbc, if_neg ha.ne', if_neg hb.ne',
    if_neg hc.ne', if_neg hd.ne',
    if_neg (by simp [hb.ne', hc.ne'] : ¬(b = 0 ∨ c = 0)),
    Bind.bind, Except.bind, if_neg hs, if_neg hor]

lemma relative_risk_success {t : Contingency2x2} {alpha : ℚ} {cc : Option ℚ} {a b c d : ℚ}
    (h : apply_cc t cc = some (a, b, c, d))
    (ha : 0 < a) (hb : 0 ≤ b) (hc : 0 < c) (hd : 0 ≤ d) :
    relative_risk_and_ci t alpha cc =
      .ok ⟨some ((((a / (a + b)) / (c / (c + d)) : ℚ)) : ℝ),
           some (Real.exp (Real.log ((((a / (a + b)) / (c / (c + d)) : ℚ)) : ℝ) -
             z_of alpha *
               Real.sqrt (((1 / a - 1 / (a + b) + 1 / c - 1 / (c + d) : ℚ) : ℝ)))),
           some (Real.exp (Real.log ((((a / (a + b)) / (c / (c + d)) : ℚ)) : ℝ) +
             z_of alpha *
               Real.sqrt (((1 / a - 1 / (a + b) + 1 / c - 1 / (c + d) : ℚ) : ℝ)))),
           alpha, cc⟩ := by
  have hab : 0 < a + b := by linarith
  have hcd : 0 < c + d := by linarith
  have hgt : ¬(a + b ≤ 0 ∨ c + d ≤ 0) := by push_neg; exact ⟨hab, hcd⟩
  have hru : ¬(c / (c + d) ≤ 0) := not_le.mpr (by positivity)
  have hs : ¬((1 / a - 1 / (a + b) + 1 / c - 1 / (c + d) : ℚ) < 0) := by
    refine not_lt.mpr ?_
    have h1 : 1 / (a + b) ≤ 1 / a := by
      apply one_div_le_one_div_of_le ha; linarith
    have h2 : 1 / (c + d) ≤ 1 / c := by
      apply one_div_le_one_div_of_le hc; linarith
    linarith
  have hrr : ¬((a / (a + b)) / (c / (c + d)) ≤ 0) := not_le.mpr (by positivity)
  simp only [relative_risk_and_ci, h, pydiv, if_neg hgt, if_neg hab.ne', if_neg hcd.ne',
    Bind.bind, Except.bind, if_neg hru, if_neg (div_ne_zero hc.ne' hcd.ne'),
    if_neg ha.ne', if_neg hc.ne', if_neg hs, if_neg hrr]

lemma rate_ratio_core_success {e1 e0 t1 t0 alpha : ℚ} {cc : Option ℚ}
    (he1 : 0 < e1) (he0 : 0 < e0) (ht1 : 0 < t1) (ht0 : 0 < t0) :
    rate_ratio_core e1 e0 t1 t0 alpha cc =
      .ok ⟨some ((((e1 / t1) / (e0 / t0) : ℚ)) : ℝ),
           some (Real.exp (Real.log ((((e1 / t1) / (e0 / t0) : ℚ)) : ℝ) -
             z_of alpha * Real.sqrt (((1 / e1 + 1 / e0 : ℚ) : ℝ)))),
           some (Real.exp (Real.log ((((e1 / t1) / (e0 / t0) : ℚ)) : ℝ) +
             z_of alpha * Real.sqrt (((1 / e1 + 1 / e0 : ℚ) : ℝ)))),
           alpha, cc⟩ := by
  have hr0 : ¬(e0 / t0 ≤ 0) := not_le.mpr (by positivity)
  have hs : ¬((1 / e1 + 1 / e0 : ℚ) < 0) := not_lt.mpr (by positivity)
  have hrr : ¬((e1 / t1) / (e0 / t0) ≤ 0) := not_le.mpr (by positivity)
  simp only [rate_ratio_core, pydiv, if_neg ht1.ne', if_neg ht0.ne',
    Bind.bind, Except.bind, if_neg hr0, if_neg (div_ne_zero he0.ne' ht0.ne'),
    if_neg he1.ne', if_neg he0.ne', if_neg hs, if_neg hrr]

/-! ## Claim C1: odds-ratio policy, formulas and CI ordering -/

/-- C1: for every `Contingency2x2` table, (i) a zero cell with no continuity
correction gives NaN odds ratio and CI bounds; (ii) a supplied correction with
a zero minimum cell is added uniformly to all four counts before computing;
(iii) (amended) when the possibly-corrected counts are all four nonzero, the
function returns `OR = (a*d)/(b*c)` with Wald bounds
`exp(ln OR ± z*sqrt(1/a+1/b+1/c+1/d))`, `z` the standard-normal quantile of
`1 - alpha/2`; (iv) for tables with no zero cell the outputs satisfy
`ci_low ≤ OR ≤ ci_high`. -/
theorem claim_C1 (t : Contingency2x2) (alpha k : ℚ) (cc : Option ℚ) :
    ((t.a = 0 ∨ t.b = 0 ∨ t.c = 0 ∨ t.d = 0) →
      odds_ratio_and_ci t alpha none = .ok (ORResult.nan alpha none)) ∧
    ((t.a = 0 ∨ t.b = 0 ∨ t.c = 0 ∨ t.d = 0) →
      apply_cc t (some k) =
        some ((t.a : ℚ) + k, (t.b : ℚ) + k, (t.c : ℚ) + k, (t.d : ℚ) + k)) ∧
    (∀ a b c d : ℚ, (cc = none ∨ ∃ k', cc = some k' ∧ 0 ≤ k') →
      apply_cc t cc = some (a, b, c, d) →
      a ≠ 0 → b ≠ 0 → c ≠ 0 → d ≠ 0 →
      odds_ratio_and_ci t alpha cc =
        .ok ⟨some ((a : ℝ) * d / ((b : ℝ) * c)),
             some (Real.exp (Real.log ((a : ℝ) * d / ((b : ℝ) * c)) -
               z_of alpha * Real.sqrt (1 / (a : ℝ) + 1 / b + 1 / c + 1 / d))),
             some (Real.exp (Real.log ((a : ℝ) * d / ((b : ℝ) * c)) +
               z_of alpha * Real.sqrt (1 / (a : ℝ) + 1 / b + 1 / c + 1 / d))),
             alpha, cc⟩) ∧
    (0 < alpha → alpha < 1 → t.a ≠ 0 → t.b ≠ 0 → t.c ≠ 0 → t.d ≠ 0 →
      ∃ orv lo hi : ℝ,
        odds_ratio_and_ci t alpha none = .ok ⟨some orv, some lo, some hi, alpha, none⟩ ∧
        lo ≤ orv ∧ orv ≤ hi) := by
  refine ⟨?_, ?_, ?_, ?_⟩
  · intro h
    simp [odds_ratio_and_ci, apply_cc_zero_none h]
  · intro h
    exact apply_cc_zero_some k h
  · rintro a b c d hcc happ ha hb hc hd
    obtain ⟨ha0, hb0, hc0, hd0⟩ := apply_cc_nonneg hcc happ
    have hap : 0 < a := ha0.lt_of_ne (Ne.symm ha)
    have hbp : 0 < b := hb0.lt_of_ne (Ne.symm hb)
    have hcp : 0 < c := hc0.lt_of_ne (Ne.symm hc)
    have hdp : 0 < d := hd0.lt_of_ne (Ne.symm hd)
    rw [odds_ratio_success happ hap hbp hcp hdp]
    push_cast
    rfl
  · intro hα0 hα1 ha hb hc hd
    have happ := apply_cc_nonzero (t := t) none (by simp [ha, hb, hc, hd])
    have hap : (0 : ℚ) < t.a := by exact_mod_cast Nat.pos_of_ne_zero ha
    have hbp : (0 : ℚ) < t.b := by exact_mod_cast Nat.pos_of_ne_zero hb
    have hcp : (0 : ℚ) < t.c := by exact_mod_cast Nat.pos_of_ne_zero hc
    have hdp : (0 : ℚ) < t.d := by exact_mod_cast Nat.pos_of_ne_zero hd
    rw [odds_ratio_success happ hap hbp hcp hdp]
    have hORpos : (0 : ℝ) <
        ((((t.a : ℚ) * t.d) / ((t.b : ℚ) * t.c) : ℚ) : ℝ) := by
      rw [Rat.cast_pos]
      positivity
    have hz : 0 ≤ z_of alpha := z_of_nonneg hα1
    have hse : 0 ≤ Real.sqrt
        (((1 / (t.a : ℚ) + 1 / t.b + 1 / t.c + 1 / t.d : ℚ) : ℝ)) :=
      Real.sqrt_nonneg _
    refine ⟨_, _, _, rfl, ?_, ?_⟩
    · calc Real.exp (Real.log ((((t.a : ℚ) * t.d) / ((t.b : ℚ) * t.c) : ℚ) : ℝ) -
            z_of alpha * Real.sqrt (((1 / (t.a : ℚ) + 1 / t.b + 1 / t.c + 1 / t.d : ℚ) : ℝ)))
          ≤ Real.exp (Real.log ((((t.a : ℚ) * t.d) / ((t.b : ℚ) * t.c) : ℚ) : ℝ)) :=
            Real.exp_le_exp.mpr (sub_le_self _ (mul_nonneg hz hse))
        _ = ((((t.a : ℚ) * t.d) / ((t.b : ℚ) * t.c) : ℚ) : ℝ) := Real.exp_log hORpos
    · calc ((((t.a : ℚ) * t.d) / ((t.b : ℚ) * t.c) : ℚ) : ℝ)
          = Real.exp (Real.log ((((t.a : ℚ) * t.d) / ((t.b : ℚ) * t.c) : ℚ) : ℝ)) :=
            (Real.exp_log hORpos).symm
        _ ≤ Real.exp (Real.log ((((t.a : ℚ) * t.d) / ((t.b : ℚ) * t.c) : ℚ) : ℝ) +
            z_of alpha * Real.sqrt (((1 / (t.a : ℚ) + 1 / t.b + 1 / t.c + 1 / t.d : ℚ) : ℝ))) :=
            Real.exp_le_exp.mpr (le_add_of_nonneg_right (mul_nonneg hz hse))

/-- C1 counterexample: on the table `a=0,b=10,c=5,d=20` with
`continuity_correction=0.0` the corrected counts have `b ≠ 0` and `c ≠ 0`,
yet `odds_ratio_and_ci` raises `ZeroDivisionError` (from `1.0/a`) instead of
returning the claimed result mapping. -/
theorem claim_C1_counterexample :
    odds_ratio_and_ci ⟨0, 10, 5, 20⟩ (1 / 20) (some 0) = .error .zeroDivision := by
  have happ : apply_cc ⟨0, 10, 5, 20⟩ (some 0) = some (0, 10, 5, 20) := by
    norm_num [apply_cc]
  simp only [odds_ratio_and_ci, happ, pydiv]
  norm_num [Bind.bind, Except.bind]

/-- C1 witness: the four parts of `claim_C1` instantiated at concrete tables
(`a=0,b=1,c=2,d=3` for the zero-cell parts, `a=1,b=2,c=3,d=4` for the
no-zero-cell parts). -/
theorem claim_C1_witness :
    (odds_ratio_and_ci ⟨0, 1, 2, 3⟩ (1 / 20) none = .ok (ORResult.nan (1 / 20) none)) ∧
    (apply_cc ⟨0, 1, 2, 3⟩ (some (1 / 2)) =
      some (((0 : ℕ) : ℚ) + 1 / 2, ((1 : ℕ) : ℚ) + 1 / 2,
            ((2 : ℕ) : ℚ) + 1 / 2, ((3 : ℕ) : ℚ) + 1 / 2)) ∧
    (odds_ratio_and_ci ⟨1, 2, 3, 4⟩ (1 / 20) none =
      .ok ⟨some (((1 : ℚ) : ℝ) * ((4 : ℚ) : ℝ) / (((2 : ℚ) : ℝ) * ((3 : ℚ) : ℝ))),
           some (Real.exp
             (Real.log (((1 : ℚ) : ℝ) * ((4 : ℚ) : ℝ) / (((2 : ℚ) : ℝ) * ((3 : ℚ) : ℝ))) -
              z_of (1 / 20) * Real.sqrt
                (1 / ((1 : ℚ) : ℝ) + 1 / ((2 : ℚ) : ℝ) + 1 / ((3 : ℚ) : ℝ) + 1 / ((4 : ℚ) : ℝ)))),
           some (Real.exp
             (Real.log (((1 : ℚ) : ℝ) * ((4 : ℚ) : ℝ) / (((2 : ℚ) : ℝ) * ((3 : ℚ) : ℝ))) +
              z_of (1 / 20) * Real.sqrt
                (1 / ((1 : ℚ) : ℝ) + 1 / ((2 : ℚ) : ℝ) + 1 / ((3 : ℚ) : ℝ) + 1 / ((4 : ℚ) : ℝ)))),
           1 / 20, none⟩) ∧
    (∃ orv lo hi : ℝ,
      odds_ratio_and_ci ⟨1, 2, 3, 4⟩ (1 / 20) none =
        .ok ⟨some orv, some lo, some hi, 1 / 20, none⟩ ∧
      lo ≤ orv ∧ orv ≤ hi) :=
  ⟨(claim_C1 ⟨0, 1, 2, 3⟩ (1 / 20) (1 / 2) none).1 (Or.inl rfl),
   (claim_C1 ⟨0, 1, 2, 3⟩ (1 / 20) (1 / 2) none).2.1 (Or.inl rfl),
   (claim_C1 ⟨1, 2, 3, 4⟩ (1 / 20) (1 / 2) none).2.2.1 1 2 3 4 (Or.inl rfl)
     (by norm_num [apply_cc]) (by norm_num) (by norm_num) (by norm_num) (by norm_num),
   (claim_C1 ⟨1, 2, 3, 4⟩ (1 / 20) (1 / 2) none).2.2.2 (by norm_num) (by norm_num)
     (by norm_num) (by norm_num) (by norm_num) (by norm_num)⟩

/-! ## Claim C4: relative-risk policy and formulas -/

/-- C4: `relative_risk_and_ci` mirrors the odds-ratio correction policy;
given possibly-corrected counts it returns NaN when a group total is zero or
the unexposed risk is `≤ 0`; otherwise — amended: provided additionally the
exposed event count `a` is nonzero — it returns
`RR = (a/(a+b))/(c/(c+d))` with Katz standard error
`sqrt(1/a - 1/(a+b) + 1/c - 1/(c+d))` and the same z-based CI construction
as the odds ratio. -/
theorem claim_C4 (t : Contingency2x2) (alpha : ℚ) (cc : Option ℚ) :
    ((t.a = 0 ∨ t.b = 0 ∨ t.c = 0 ∨ t.d = 0) →
      relative_risk_and_ci t alpha none = .ok (RRResult.nan alpha none)) ∧
    (∀ a b c d : ℚ, apply_cc t cc = some (a, b, c, d) →
      (a + b = 0 ∨ c + d = 0) →
      relative_risk_and_ci t alpha cc = .ok (RRResult.nan alpha cc)) ∧
    (∀ a b c d : ℚ, apply_cc t cc = some (a, b, c, d) →
      0 < a + b → 0 < c + d → c / (c + d) ≤ 0 →
      relative_risk_and_ci t alpha cc = .ok (RRResult.nan alpha cc)) ∧
    (∀ a b c d : ℚ, (cc = none ∨ ∃ k, cc = some k ∧ 0 ≤ k) →
      apply_cc t cc = some (a, b, c, d) →
      a ≠ 0 → 0 < a + b → 0 < c + d → 0 < c / (c + d) →
      relative_risk_and_ci t alpha cc =
        .ok ⟨some (((a : ℝ) / ((a : ℝ) + b)) / ((c : ℝ) / ((c : ℝ) + d))),
             some (Real.exp
               (Real.log (((a : ℝ) / ((a : ℝ) + b)) / ((c : ℝ) / ((c : ℝ) + d))) -
                z_of alpha * Real.sqrt
                  (1 / (a : ℝ) - 1 / ((a : ℝ) + b) + 1 / (c : ℝ) - 1 / ((c : ℝ) + d)))),
             some (Real.exp
               (Real.log (((a : ℝ) / ((a : ℝ) + b)) / ((c : ℝ) / ((c : ℝ) + d))) +
                z_of alpha * Real.sqrt
                  (1 / (a : ℝ) - 1 / ((a : ℝ) + b) + 1 / (c : ℝ) - 1 / ((c : ℝ) + d)))),
             alpha, cc⟩) := by
  refine ⟨?_, ?_, ?_, ?_⟩
  · intro h
    simp [relative_risk_and_ci, apply_cc_zero_none h]
  · rintro a b c d happ h0
    have : a + b ≤ 0 ∨ c + d ≤ 0 := by
      rcases h0 with h | h
      · exact Or.inl h.le
      · exact Or.inr h.le
    simp [relative_risk_and_ci, happ, this]
  · rintro a b c d happ hab hcd hru
    simp only [relative_risk_and_ci, happ, pydiv,
      if_neg (by push_neg; exact ⟨hab, hcd⟩ : ¬(a + b ≤ 0 ∨ c + d ≤ 0)),
      if_neg hab.ne', if_neg hcd.ne', Bind.bind, Except.bind, if_pos hru]
  · rintro a b c d hcc happ ha hab hcd hru
    obtain ⟨ha0, hb0, hc0, hd0⟩ := apply_cc_nonneg hcc happ
    have hap : 0 < a := ha0.lt_of_ne (Ne.symm ha)
    have hcp : 0 < c := by
      by_contra hc
      push_neg at hc
      have : c = 0 := le_antisymm hc hc0
      rw [this] at hru
      simp at hru
    rw [relative_risk_success happ hap hb0 hcp hd0]
    push_cast
    rfl

/-- C4 counterexample: on `a=0,b=10,c=5,d=20` with `continuity_correction=0.0`
both group totals are positive and the unexposed risk is `1/5 > 0`, yet
`relative_risk_and_ci` raises `ZeroDivisionError` (from the Katz `1.0/a` term)
instead of returning the claimed result mapping. -/
theorem claim_C4_counterexample :
    relative_risk_and_ci ⟨0, 10, 5, 20⟩ (1 / 10) (some 0) = .error .zeroDivision := by
  have happ : apply_cc ⟨0, 10, 5, 20⟩ (some 0) = some (0, 10, 5, 20) := by
    norm_num [apply_cc]
  simp only [relative_risk_and_ci, happ, pydiv]
  norm_num [Bind.bind, Except.bind]

/-- C4 witness: the parts of `claim_C4` instantiated at concrete tables. -/
theorem claim_C4_witness :
    (relative_risk_and_ci ⟨0, 1, 2, 3⟩ (1 / 10) none = .ok (RRResult.nan (1 / 10) none)) ∧
    (relative_risk_and_ci ⟨0, 0, 5, 20⟩ (1 / 10) (some 0) = .ok (RRResult.nan (1 / 10) (some 0))) ∧
    (relative_risk_and_ci ⟨2, 3, 0, 20⟩ (1 / 10) (some 0) = .ok (RRResult.nan (1 / 10) (some 0))) ∧
    (relative_risk_and_ci ⟨1, 2, 3, 4⟩ (1 / 10) none =
      .ok ⟨some ((((1 : ℚ) : ℝ) / (((1 : ℚ) : ℝ) + ((2 : ℚ) : ℝ))) /
                 (((3 : ℚ) : ℝ) / (((3 : ℚ) : ℝ) + ((4 : ℚ) : ℝ)))),
           some (Real.exp
             (Real.log ((((1 : ℚ) : ℝ) / (((1 : ℚ) : ℝ) + ((2 : ℚ) : ℝ))) /
                 (((3 : ℚ) : ℝ) / (((3 : ℚ) : ℝ) + ((4 : ℚ) : ℝ)))) -
              z_of (1 / 10) * Real.sqrt
                (1 / ((1 : ℚ) : ℝ) - 1 / (((1 : ℚ) : ℝ) + ((2 : ℚ) : ℝ)) +
                 1 / ((3 : ℚ) : ℝ) - 1 / (((3 : ℚ) : ℝ) + ((4 : ℚ) : ℝ))))),
           some (Real.exp
             (Real.log ((((1 : ℚ) : ℝ) / (((1 : ℚ) : ℝ) + ((2 : ℚ) : ℝ))) /
                 (((3 : ℚ) : ℝ) / (((3 : ℚ) : ℝ) + ((4 : ℚ) : ℝ)))) +
              z_of (1 / 10) * Real.sqrt
                (1 / ((1 : ℚ) : ℝ) - 1 / (((1 : ℚ) : ℝ) + ((2 : ℚ) : ℝ)) +
                 1 / ((3 : ℚ) : ℝ) - 1 / (((3 : ℚ) : ℝ) + ((4 : ℚ) : ℝ))))),
           1 / 10, none⟩) :=
  ⟨(claim_C4 ⟨0, 1, 2, 3⟩ (1 / 10) none).1 (Or.inl rfl),
   (claim_C4 ⟨0, 0, 5, 20⟩ (1 / 10) (some 0)).2.1 0 0 5 20 (by norm_num [apply_cc])
     (by norm_num),
   (claim_C4 ⟨2, 3, 0, 20⟩ (1 / 10) (some 0)).2.2.1 2 3 0 20 (by norm_num [apply_cc])
     (by norm_num) (by norm_num) (by norm_num),
   (claim_C4 ⟨1, 2, 3, 4⟩ (1 / 10) none).2.2.2 1 2 3 4 (Or.inl rfl)
     (by norm_num [apply_cc]) (by norm_num) (by norm_num) (by norm_num) (by norm_num)⟩

/-! ## Claim C5: rate-ratio fatal input errors and zero-event policy -/

/-- C5: `rate_ratio_and_ci` raises a fatal input error (`ValueError`) whenever
a person-time is `≤ 0` or an event count is negative; when the preconditions
hold and an event count is zero with no correction supplied it returns NaN for
the ratio and both CI bounds; when a correction is supplied and an event count
is zero, the correction is added to both event counts before computing the
rates. -/
theorem claim_C5 (ee eu : ℤ) (te tu alpha k : ℚ) :
    ((te ≤ 0 ∨ tu ≤ 0) →
      ∀ cc, rate_ratio_and_ci ee te eu tu alpha cc = .error .valueError) ∧
    (0 < te → 0 < tu → (ee < 0 ∨ eu < 0) →
      ∀ cc, rate_ratio_and_ci ee te eu tu alpha cc = .error .valueError) ∧
    (0 < te → 0 < tu → 0 ≤ ee → 0 ≤ eu → (ee = 0 ∨ eu = 0) →
      rate_ratio_and_ci ee te eu tu alpha none = .ok (RateResult.nan alpha none)) ∧
    (0 < te → 0 < tu → 0 ≤ ee → 0 ≤ eu → (ee = 0 ∨ eu = 0) →
      rate_ratio_and_ci ee te eu tu alpha (some k) =
        rate_ratio_core ((ee : ℚ) + k) ((eu : ℚ) + k) te tu alpha (some k)) := by
  refine ⟨?_, ?_, ?_, ?_⟩
  · intro h cc
    simp [rate_ratio_and_ci, h]
  · intro hte htu h cc
    rw [rate_ratio_and_ci.eq_def, if_neg (by push_neg; exact ⟨hte, htu⟩), if_pos h]
  · intro hte htu hee heu hz
    rw [rate_ratio_and_ci.eq_def, if_neg (by push_neg; exact ⟨hte, htu⟩),
      if_neg (by push_neg; exact ⟨hee, heu⟩), if_pos hz]
  · intro hte htu hee heu hz
    rw [rate_ratio_and_ci.eq_def, if_neg (by push_neg; exact ⟨hte, htu⟩),
      if_neg (by push_neg; exact ⟨hee, heu⟩), if_pos hz]

/-- C5 witness: `claim_C5` instantiated at concrete inputs
(`time_exposed = 0`, a negative event count, and zero event counts with and
without a correction). -/
theorem claim_C5_witness :
    (rate_ratio_and_ci 3 0 4 1 (1 / 20) none = .error .valueError) ∧
    (rate_ratio_and_ci (-1) 2 4 1 (1 / 20) none = .error .valueError) ∧
    (rate_ratio_and_ci 0 2 4 1 (1 / 20) none = .ok (RateResult.nan (1 / 20) none)) ∧
    (rate_ratio_and_ci 0 2 4 1 (1 / 20) (some (1 / 2)) =
      rate_ratio_core (((0 : ℤ) : ℚ) + 1 / 2) (((4 : ℤ) : ℚ) + 1 / 2) 2 1 (1 / 20)
        (some (1 / 2))) :=
  ⟨(claim_C5 3 4 0 1 (1 / 20) (1 / 2)).1 (Or.inl le_rfl) none,
   (claim_C5 (-1) 4 2 1 (1 / 20) (1 / 2)).2.1 (by norm_num) (by norm_num)
     (by norm_num) none,
   (claim_C5 0 4 2 1 (1 / 20) (1 / 2)).2.2.1 (by norm_num) (by norm_num)
     (by norm_num) (by norm_num) (by norm_num),
   (claim_C5 0 4 2 1 (1 / 20) (1 / 2)).2.2.2 (by norm_num) (by norm_num)
     (by norm_num) (by norm_num) (by norm_num)⟩

/-! ## Claim C2: undefined statistics never raise (amended: correction
absent or strictly positive) -/

/-- C2 (amended): for every table and every continuity correction that is
either absent or strictly positive, `odds_ratio_and_ci` and
`relative_risk_and_ci` return a well-formed result without raising (NaN fields
in the undefined cases), and `rate_ratio_and_ci` returns without raising
whenever its preconditions hold.  (With a correction of exactly `0` and a zero
cell the source instead raises `ZeroDivisionError`, see the counterexample.) -/
theorem claim_C2 (t : Contingency2x2) (alpha : ℚ) (cc : Option ℚ)
    (ee eu : ℤ) (te tu : ℚ) :
    (cc = none ∨ ∃ k, cc = some k ∧ 0 < k) →
    ((∃ r, odds_ratio_and_ci t alpha cc = .ok r) ∧
     (∃ r, relative_risk_and_ci t alpha cc = .ok r) ∧
     (0 < te → 0 < tu → 0 ≤ ee → 0 ≤ eu →
       ∃ r, rate_ratio_and_ci ee te eu tu alpha cc = .ok r) ∧
     ((t.a = 0 ∨ t.b = 0 ∨ t.c = 0 ∨ t.d = 0) → cc = none →
       odds_ratio_and_ci t alpha cc = .ok (ORResult.nan alpha none) ∧
       relative_risk_and_ci t alpha cc = .ok (RRResult.nan alpha none))) := by
  intro hcc
  refine ⟨?_, ?_, ?_, ?_⟩
  · cases happ : apply_cc t cc with
    | none => exact ⟨ORResult.nan alpha cc, by simp [odds_ratio_and_ci, happ]⟩
    | some q =>
      obtain ⟨a, b, c, d⟩ := q
      obtain ⟨hap, hbp, hcp, hdp⟩ := apply_cc_pos hcc happ
      exact ⟨_, odds_ratio_success happ hap hbp hcp hdp⟩
  · cases happ : apply_cc t cc with
    | none => exact ⟨RRResult.nan alpha cc, by simp [relative_risk_and_ci, happ]⟩
    | some q =>
      obtain ⟨a, b, c, d⟩ := q
      obtain ⟨hap, hbp, hcp, hdp⟩ := apply_cc_pos hcc happ
      exact ⟨_, relative_risk_success happ hap hbp.le hcp hdp.le⟩
  · intro hte htu hee heu
    by_cases hz : ee = 0 ∨ eu = 0
    · rcases hcc with rfl | ⟨k, rfl, hk⟩
      · rw [rate_ratio_and_ci.eq_def, if_neg (by push_neg; exact ⟨hte, htu⟩),
          if_neg (by push_neg; exact ⟨hee, heu⟩), if_pos hz]
        exact ⟨_, rfl⟩
      · have he1 : (0 : ℚ) < (ee : ℚ) + k :=
          add_pos_of_nonneg_of_pos (by exact_mod_cast hee) hk
        have he0 : (0 : ℚ) < (eu : ℚ) + k :=
          add_pos_of_nonneg_of_pos (by exact_mod_cast heu) hk
        rw [rate_ratio_and_ci.eq_def, if_neg (by push_neg; exact ⟨hte, htu⟩),
          if_neg (by push_neg; exact ⟨hee, heu⟩), if_pos hz]
        exact ⟨_, rate_ratio_core_success he1 he0 hte htu⟩
    · push_neg at hz
      have he1 : (0 : ℚ) < (ee : ℚ) := by
        exact_mod_cast lt_of_le_of_ne hee (Ne.symm hz.1)
      have he0 : (0 : ℚ) < (eu : ℚ) := by
        exact_mod_cast lt_of_le_of_ne heu (Ne.symm hz.2)
      rw [rate_ratio_and_ci.eq_def, if_neg (by push_neg; exact ⟨hte, htu⟩),
        if_neg (by push_neg; exact ⟨hee, heu⟩),
        if_neg (by push_neg; exact hz),
        rate_ratio_core_success he1 he0 hte htu]
      exact ⟨_, rfl⟩
  · intro hzero hccn
    subst hccn
    exact ⟨by simp [odds_ratio_and_ci, apply_cc_zero_none hzero],
           by simp [relative_risk_and_ci, apply_cc_zero_none hzero]⟩

/-- C2 counterexample: with the non-negative correction `0.0` supplied (the
claim includes zero) and the zero-cell table `a=10,b=20,c=5,d=0`,
`odds_ratio_and_ci` raises `ZeroDivisionError` (from `1.0/d`) instead of
returning a well-formed result. -/
theorem claim_C2_counterexample :
    odds_ratio_and_ci ⟨10, 20, 5, 0⟩ (1 / 10) (some 0) = .error .zeroDivision := by
  have happ : apply_cc ⟨10, 20, 5, 0⟩ (some 0) = some (10, 20, 5, 0) := by
    norm_num [apply_cc]
  simp only [odds_ratio_and_ci, happ, pydiv]
  norm_num [Bind.bind, Except.bind]

/-- C2 witness: `claim_C2` instantiated with an absent correction on a
zero-cell table, together with the rate-ratio preconditions at concrete
values. -/
theorem claim_C2_witness :
    (∃ r, odds_ratio_and_ci ⟨0, 7, 3, 9⟩ (1 / 10) none = .ok r) ∧
    (∃ r, relative_risk_and_ci ⟨0, 7, 3, 9⟩ (1 / 10) none = .ok r) ∧
    (0 < (5 : ℚ) → 0 < (4 : ℚ) → 0 ≤ (0 : ℤ) → 0 ≤ (6 : ℤ) →
      ∃ r, rate_ratio_and_ci 0 5 6 4 (1 / 10) none = .ok r) ∧
    (((⟨0, 7, 3, 9⟩ : Contingency2x2).a = 0 ∨ (⟨0, 7, 3, 9⟩ : Contingency2x2).b = 0 ∨
      (⟨0, 7, 3, 9⟩ : Contingency2x2).c = 0 ∨ (⟨0, 7, 3, 9⟩ : Contingency2x2).d = 0) →
      (none : Option ℚ) = none →
      odds_ratio_and_ci ⟨0, 7, 3, 9⟩ (1 / 10) none = .ok (ORResult.nan (1 / 10) none) ∧
      relative_risk_and_ci ⟨0, 7, 3, 9⟩ (1 / 10) none = .ok (RRResult.nan (1 / 10) none)) :=
  claim_C2 ⟨0, 7, 3, 9⟩ (1 / 10) none 0 6 5 4 (Or.inl rfl)

/-! ## Claim C3: chi-square independence test (modelled from the spec) -/

/-- Result mapping of `chi_square_test`, with the keys asserted by
`tests/test_metrics.py`. -/
structure ChiSquareResult where
  chi2_stat : ℚ
  chi2_p_value : ℝ
  chi2_dof : ℕ
  chi2_yates_correction : Bool

/-- Modelled from the spec: one cell's contribution to the chi-square
statistic — the squared discrepancy `(O-E)²/E`, with 0.5 subtracted from the
absolute discrepancy before squaring when the Yates correction is enabled. -/
def chiSquareTerm (yates : Bool) (o e : ℚ) : ℚ :=
  if yates then (|o - e| - 1 / 2) ^ 2 / e else (o - e) ^ 2 / e

/-- Modelled from the spec: Pearson's chi-square statistic for independence on
the 2x2 table, with expected counts `row·col/n` from the margins. -/
def chi2_stat_of (t : Contingency2x2) (yates : Bool) : ℚ :=
  let n : ℚ := (t.a : ℚ) + t.b + t.c + t.d
  let r1 : ℚ := (t.a : ℚ) + t.b
  let r2 : ℚ := (t.c : ℚ) + t.d
  let c1 : ℚ := (t.a : ℚ) + t.c
  let c2 : ℚ := (t.b : ℚ) + t.d
  chiSquareTerm yates t.a (r1 * c1 / n) + chiSquareTerm yates t.b (r1 * c2 / n) +
    chiSquareTerm yates t.c (r2 * c1 / n) + chiSquareTerm yates t.d (r2 * c2 / n)

/-- The survival function (upper tail) of the chi-square distribution with one
degree of freedom, via the standard normal CDF: `P(Z² > x) = 2·(1 - Φ(√x))`. -/
noncomputable def chiSqSurvival1 (x : ℝ) : ℝ :=
  2 * (1 - stdNormalCDF (Real.sqrt x))

/-- Modelled from the spec: `chi_square_test` is imported by
`tests/test_metrics.py` from `bias_analysis.metrics` but is missing from the
repository sources; per spec §4.5 it returns the (optionally
Yates-corrected) Pearson statistic, the upper-tail p-value of the chi-square
distribution with 1 degree of freedom, the fixed degrees of freedom 1, and
the correction flag actually applied. -/
noncomputable def chi_square_test (t : Contingency2x2) (yates : Bool) : ChiSquareResult :=
  ⟨chi2_stat_of t yates, chiSqSurvival1 ((chi2_stat_of t yates : ℚ) : ℝ), 1, yates⟩

lemma chi2_stat_of_nonneg (t : Contingency2x2) (yates : Bool) :
    0 ≤ chi2_stat_of t yates := by
  unfold chi2_stat_of chiSquareTerm
  cases yates <;> simp only [Bool.false_eq_true, if_true, if_false] <;>
    refine add_nonneg (add_nonneg (add_nonneg ?_ ?_) ?_) ?_ <;>
    rcases le_or_lt 0 ((((t.a : ℚ) + t.b + t.c + t.d) : ℚ)) with h | h <;>
    positivity

lemma chiSqSurvival1_nonneg (x : ℝ) : 0 ≤ chiSqSurvival1 x := by
  unfold chiSqSurvival1
  have h := stdNormalCDF_le_one (Real.sqrt x)
  linarith

lemma chiSqSurvival1_le_one (x : ℝ) : chiSqSurvival1 x ≤ 1 := by
  unfold chiSqSurvival1
  have h : (1 : ℝ) / 2 ≤ stdNormalCDF (Real.sqrt x) :=
    stdNormalCDF_zero ▸ stdNormalCDF_mono (Real.sqrt_nonneg x)
  linarith

/-- C3: for every table `chi_square_test` returns the statistic, an
upper-tail p-value in `[0,1]`, degrees of freedom 1, and the applied
correction flag; on `a=10,b=20,c=30,d=40` the Yates-corrected statistic
(`25/56`) differs from the uncorrected one (`50/63`). -/
theorem claim_C3 (t : Contingency2x2) (yates : Bool) :
    ((chi_square_test t yates).chi2_dof = 1) ∧
    ((chi_square_test t yates).chi2_yates_correction = yates) ∧
    (0 ≤ (chi_square_test t yates).chi2_p_value) ∧
    ((chi_square_test t yates).chi2_p_value ≤ 1) ∧
    ((chi_square_test ⟨10, 20, 30, 40⟩ true).chi2_stat ≠
      (chi_square_test ⟨10, 20, 30, 40⟩ false).chi2_stat) := by
  have hy : (chi_square_test ⟨10, 20, 30, 40⟩ true).chi2_stat = 25 / 56 := by
    norm_num [chi_square_test, chi2_stat_of, chiSquareTerm, abs_sub_comm, abs_of_nonneg]
  have hn : (chi_square_test ⟨10, 20, 30, 40⟩ false).chi2_stat = 50 / 63 := by
    norm_num [chi_square_test, chi2_stat_of, chiSquareTerm]
  refine ⟨rfl, rfl, chiSqSurvival1_nonneg _, chiSqSurvival1_le_one _, ?_⟩
  rw [hy, hn]
  norm_num

/-! ## A model of pandas data frames -/

/-- A cell of a pandas column: missing (NaN/None), numeric, or string. -/
inductive Cell where
  | na
  | num (q : ℚ)
  | str (s : String)
deriving Repr, DecidableEq

/-- A pandas DataFrame: named columns of cells (rectangular frames have all
columns of equal length). -/
structure DF where
  cols : List (String × List Cell)
deriving Repr, DecidableEq

/-- Column lookup, `df[name]`. -/
def DF.col? (df : DF) (name : String) : Option (List Cell) :=
  (df.cols.find? fun c => c.1 == name).map (·.2)

/-- Python `str()` of a cell, as produced by `.astype(str)`; `fmt` models the
rendering of numeric values as strings (external pandas/NumPy behavior). -/
def cellStr (fmt : ℚ → String) : Cell → String
  | .na => "nan"
  | .num q => fmt q
  | .str s => s

/-- pandas `==` comparison of a cell against a numeric scalar: missing values
and strings never compare equal. -/
def cellEqNum (c : Cell) (v : ℚ) : Bool :=
  match c with
  | .num q => q == v
  | _ => false

def Cell.isNA : Cell → Bool
  | .na => true
  | _ => false

/-! ## Claim C9: `build_2x2` -/

/-- `build_2x2` from `bias_analysis/contingency.py`: select the group and
outcome columns (`KeyError` if absent), drop rows with a missing group or
outcome, partition by the string-rendered group label, and count events by
exact equality against the positive outcome value. -/
def build_2x2 (fmt : ℚ → String) (cohort : DF) (group_col outcome_col : String)
    (exposed_value unexposed_value : String) (outcome_positive_value : ℚ) :
    Except PyErr Contingency2x2 :=
  match cohort.col? group_col, cohort.col? outcome_col with
  | some g, some o =>
    let rows := g.zip o
    let kept := rows.filter fun r => !r.1.isNA && !r.2.isNA
    let expRows := kept.filter fun r => cellStr fmt r.1 == exposed_value
    let unexpRows := kept.filter fun r => cellStr fmt r.1 == unexposed_value
    let a := (expRows.filter fun r => cellEqNum r.2 outcome_positive_value).length
    let b := (expRows.filter fun r => !cellEqNum r.2 outcome_positive_value).length
    let c := (unexpRows.filter fun r => cellEqNum r.2 outcome_positive_value).length
    let d := (unexpRows.filter fun r => !cellEqNum r.2 outcome_positive_value).length
    .ok ⟨a, b, c, d⟩
  | _, _ => .error .valueError

/-- C9: for every cohort containing the named group and outcome columns,
`build_2x2` returns (never raises) the four counts obtained by filtering the
rows in one pass: a row is counted when its group and outcome are non-missing,
its string-rendered group label equals the exposed (resp. unexposed) value,
and the outcome equals (resp. differs from) the positive outcome value.
Absent categories yield zero counts (empty filters), and all counts are
natural numbers, hence `≥ 0`. -/
theorem claim_C9 (fmt : ℚ → String) (cohort : DF) (g o : List Cell)
    (group_col outcome_col exposed_value unexposed_value : String) (pv : ℚ)
    (hg : cohort.col? group_col = some g) (ho : cohort.col? outcome_col = some o) :
    build_2x2 fmt cohort group_col outcome_col exposed_value unexposed_value pv =
      .ok ⟨((g.zip o).filter fun r => cellEqNum r.2 pv &&
              (cellStr fmt r.1 == exposed_value && (!r.1.isNA && !r.2.isNA))).length,
           ((g.zip o).filter fun r => !cellEqNum r.2 pv &&
              (cellStr fmt r.1 == exposed_value && (!r.1.isNA && !r.2.isNA))).length,
           ((g.zip o).filter fun r => cellEqNum r.2 pv &&
              (cellStr fmt r.1 == unexposed_value && (!r.1.isNA && !r.2.isNA))).length,
           ((g.zip o).filter fun r => !cellEqNum r.2 pv &&
              (cellStr fmt r.1 == unexposed_value && (!r.1.isNA && !r.2.isNA))).length⟩ ∧
    (∀ t' : Contingency2x2,
      build_2x2 fmt cohort group_col outcome_col exposed_value unexposed_value pv =
        .ok t' → 0 ≤ t'.a ∧ 0 ≤ t'.b ∧ 0 ≤ t'.c ∧ 0 ≤ t'.d) := by
  constructor
  · simp only [build_2x2, hg, ho, List.filter_filter]
  · intro t' _
    exact ⟨Nat.zero_le _, Nat.zero_le _, Nat.zero_le _, Nat.zero_le _⟩

/-- C9 witness: `claim_C9` instantiated on a concrete two-column cohort with a
missing group value and both group labels present. -/
theorem claim_C9_witness :
    build_2x2 (fun _ => "x")
        ⟨[("g", [Cell.str "A", Cell.str "B", Cell.na, Cell.str "A"]),
          ("y", [Cell.num 1, Cell.num 0, Cell.num 1, Cell.num 1])]⟩
        "g" "y" "A" "B" 1 =
      .ok ⟨(([Cell.str "A", Cell.str "B", Cell.na, Cell.str "A"].zip
               [Cell.num 1, Cell.num 0, Cell.num 1, Cell.num 1]).filter fun r =>
               cellEqNum r.2 1 && (cellStr (fun _ => "x") r.1 == "A" &&
                 (!r.1.isNA && !r.2.isNA))).length,
           (([Cell.str "A", Cell.str "B", Cell.na, Cell.str "A"].zip
               [Cell.num 1, Cell.num 0, Cell.num 1, Cell.num 1]).filter fun r =>
               !cellEqNum r.2 1 && (cellStr (fun _ => "x") r.1 == "A" &&
                 (!r.1.isNA && !r.2.isNA))).length,
           (([Cell.str "A", Cell.str "B", Cell.na, Cell.str "A"].zip
               [Cell.num 1, Cell.num 0, Cell.num 1, Cell.num 1]).filter fun r =>
               cellEqNum r.2 1 && (cellStr (fun _ => "x") r.1 == "B" &&
                 (!r.1.isNA && !r.2.isNA))).length,
           (([Cell.str "A", Cell.str "B", Cell.na, Cell.str "A"].zip
               [Cell.num 1, Cell.num 0, Cell.num 1, Cell.num 1]).filter fun r =>
               !cellEqNum r.2 1 && (cellStr (fun _ => "x") r.1 == "B" &&
                 (!r.1.isNA && !r.2.isNA))).length⟩ :=
  (claim_C9 (fun _ => "x")
      ⟨[("g", [Cell.str "A", Cell.str "B", Cell.na, Cell.str "A"]),
        ("y", [Cell.num 1, Cell.num 0, Cell.num 1, Cell.num 1])]⟩
      [Cell.str "A", Cell.str "B", Cell.na, Cell.str "A"]
      [Cell.num 1, Cell.num 0, Cell.num 1, Cell.num 1]
      "g" "y" "A" "B" 1 rfl rfl).1

/-! ## The design-matrix builder from `bias_analysis/logistic.py` -/

/-- `pd.to_numeric(·, errors="coerce")` on one cell; `parse` models pandas'
numeric parsing of strings (external library behavior): a non-coercible value
becomes missing. -/
def coerceCell (parse : String → Option ℚ) : Cell → Cell
  | .na => .na
  | .num q => .num q
  | .str s =>
    match parse s with
    | some q => .num q
    | none => .na

def Cell.isNum : Cell → Bool
  | .num _ => true
  | _ => false

/-- `pd.api.types.is_numeric_dtype`: a column is numeric-typed when every cell
is numeric or missing (any string makes it `object`-typed). -/
def colIsNumericDtype (col : List Cell) : Bool :=
  col.all fun c => c.isNum || c.isNA

/-- `_infer_covariate_types` from `bias_analysis/logistic.py`: a covariate in
both force sets is a fatal input error; forced covariates go to their forced
bucket; otherwise numeric dtype is kept numeric, and a non-numeric column is
treated as numeric when at least 90% of its non-missing values coerce to
numbers (`10*ok ≥ 9*non_null` with `non_null > 0`), else categorical. -/
def covariateIsNumeric (parse : String → Option ℚ) (work : DF) (c : String)
    (force_categorical force_numeric : List String) : Bool :=
  if force_numeric.contains c then true
  else if force_categorical.contains c then false
  else
    let col := (work.col? c).getD []
    if colIsNumericDtype col then true
    else
      let non_null := (col.filter fun x => !x.isNA).length
      let ok := ((col.map (coerceCell parse)).filter fun x => !x.isNA).length
      decide (0 < non_null ∧ 9 * non_null ≤ 10 * ok)

def infer_covariate_types (parse : String → Option ℚ) (work : DF)
    (covariates force_categorical force_numeric : List String) :
    Except PyErr (List String × List String) :=
  match covariates with
  | [] => .ok ([], [])
  | c :: rest =>
    if force_numeric.contains c && force_categorical.contains c then
      .error .valueError
    else
      match infer_covariate_types parse work rest force_categorical force_numeric with
      | .error e => .error e
      | .ok (nums, cats) =>
        .ok (if covariateIsNumeric parse work c force_categorical force_numeric then
               (c :: nums, cats)
             else (nums, c :: cats))

/-- First-seen distinct elements of a string list (accumulator-based). -/
def distinctAux (seen : List String) : List String → List String
  | [] => []
  | x :: xs =>
    if x ∈ seen then distinctAux seen xs else x :: distinctAux (x :: seen) xs

/-- First-seen distinct elements of a string list. -/
def distinctFirst (l : List String) : List String :=
  distinctAux [] l

/-- The distinct non-missing string levels of a column, in first-observed
order; per spec §4.7 reference coding drops the first observed level (the
external `pd.get_dummies` call is modelled with this level order). -/
def levelsOf (fmt : ℚ → String) (col : List Cell) : List String :=
  distinctFirst (col.filterMap fun c =>
    match c with
    | .na => none
    | c => some (cellStr fmt c))

/-- One indicator column of `pd.get_dummies` (with `dummy_na=False`: missing
values get 0 in every indicator). -/
def dummyCol (fmt : ℚ → String) (col : List Cell) (level : String) : List Cell :=
  col.map fun cell =>
    match cell with
    | .na => .num 0
    | c => .num (if cellStr fmt c == level then 1 else 0)

/-- The reference-coded (`drop_first=True`) indicator columns of one
categorical covariate, named `name_level`. -/
def dummyCols (fmt : ℚ → String) (name : String) (col : List Cell) :
    List (String × List Cell) :=
  ((levelsOf fmt col).drop 1).map fun level =>
    (name ++ "_" ++ level, dummyCol fmt col level)

/-- Row-mask selection: `frame.loc[mask]` on one column. -/
def applyMask (mask : List Bool) (col : List Cell) : List Cell :=
  ((mask.zip col).filter (·.1)).map (·.2)

/-- `X.isna().any(axis=1)` at row `i`. -/
def rowHasNA (xcols : List (String × List Cell)) (i : ℕ) : Bool :=
  xcols.any fun c => (c.2.getD i Cell.na).isNA

/-- The pre-drop feature matrix of `build_design_matrix`: the group indicator
(coerced to numeric), then coerced numeric covariates, then one-hot columns;
`sm.add_constant` (default `prepend=True`) puts the `const` column FIRST when
an intercept is requested; finally `X.apply(pd.to_numeric, errors="coerce")`
re-coerces every column. -/
def dm_pre_matrix (parse : String → Option ℚ) (fmt : ℚ → String) (df : DF)
    (group_indicator_col : String) (numeric_covs cat_covs : List String)
    (add_intercept : Bool) (n : ℕ) : List (String × List Cell) :=
  let g0 := ((df.col? group_indicator_col).getD []).map (coerceCell parse)
  let numCols := numeric_covs.map fun c =>
    (c, ((df.col? c).getD []).map (coerceCell parse))
  let dumCols := cat_covs.flatMap fun c => dummyCols fmt c ((df.col? c).getD [])
  let xPre := (group_indicator_col, g0) :: (numCols ++ dumCols)
  let xAll :=
    if add_intercept then ("const", List.replicate n (Cell.num 1)) :: xPre else xPre
  xAll.map fun c => (c.1, c.2.map (coerceCell parse))

/-- The row mask of `build_design_matrix` for each drop policy (`"none"`
keeps every row). -/
def dm_mask (drop_missing : String) (y0 : List Cell)
    (xCols : List (String × List Cell)) (n : ℕ) : List Bool :=
  if drop_missing = "any" then
    (List.range n).map fun i => !((y0.getD i Cell.na).isNA || rowHasNA xCols i)
  else if drop_missing = "outcome" then
    (List.range n).map fun i => !(y0.getD i Cell.na).isNA
  else if drop_missing = "covariates" then
    (List.range n).map fun i => !(rowHasNA xCols i)
  else List.replicate n true

/-- Metadata mapping returned by `build_design_matrix`. -/
structure DMMeta where
  n_before : ℕ
  n_used : ℕ
  n_dropped : ℕ
  numeric_covariates : List String
  categorical_covariates : List String
  terms : List String
  add_intercept : Bool
  drop_missing : String
deriving Repr, DecidableEq

/-- `build_design_matrix` from `bias_analysis/logistic.py`: fatal input error
for a missing outcome/group/covariate column or an invalid drop policy;
otherwise returns the outcome series, the feature matrix and the audit
metadata, with rows dropped after assembly according to the policy. -/
def build_design_matrix (parse : String → Option ℚ) (fmt : ℚ → String) (df : DF)
    (outcome_col group_indicator_col : String) (covariates : List String)
    (drop_missing : String) (add_intercept : Bool)
    (force_categorical force_numeric : List String) :
    Except PyErr (List Cell × List (String × List Cell) × DMMeta) :=
  if (df.col? outcome_col).isNone then .error .valueError
  else if (df.col? group_indicator_col).isNone then .error .valueError
  else if covariates.any fun c => (df.col? c).isNone then .error .valueError
  else
    match infer_covariate_types parse df covariates force_categorical force_numeric with
    | .error e => .error e
    | .ok (numeric_covs, cat_covs) =>
      let ocol := (df.col? outcome_col).getD []
      let n := ocol.length
      let y0 := ocol.map (coerceCell parse)
      let xCols := dm_pre_matrix parse fmt df group_indicator_col numeric_covs cat_covs
        add_intercept n
      if ¬(drop_missing = "any" ∨ drop_missing = "outcome" ∨
           drop_missing = "covariates" ∨ drop_missing = "none") then
        .error .valueError
      else if drop_missing = "none" then
        .ok (y0, xCols,
          ⟨n, y0.length, n - y0.length, numeric_covs, cat_covs,
           xCols.map (·.1), add_intercept, drop_missing⟩)
      else
        let mask := dm_mask drop_missing y0 xCols n
        let y := applyMask mask y0
        .ok (y, xCols.map fun c => (c.1, applyMask mask c.2),
          ⟨n, y.length, n - y.length, numeric_covs, cat_covs,
           xCols.map (·.1), add_intercept, drop_missing⟩)

/-! ## Structural lemmas about the design-matrix builder -/

lemma applyMask_cons (m : Bool) (ms : List Bool) (c : Cell) (cs : List Cell) :
    applyMask (m :: ms) (c :: cs) =
      if m then c :: applyMask ms cs else applyMask ms cs := by
  cases m <;> simp [applyMask]

lemma applyMask_length : ∀ {mask : List Bool} {col : List Cell},
    mask.length ≤ col.length →
    (applyMask mask col).length = (mask.filter id).length
  | [], _, _ => rfl
  | _ :: _, [], h => by simp at h
  | m :: ms, c :: cs, h => by
    have h' : ms.length ≤ cs.length := by simpa using h
    rw [applyMask_cons]
    cases m
    · simpa using applyMask_length h'
    · simpa using applyMask_length h'

lemma applyMask_length_le (mask : List Bool) (col : List Cell) :
    (applyMask mask col).length ≤ mask.length := by
  unfold applyMask
  calc (((mask.zip col).filter (·.1)).map (·.2)).length
      = ((mask.zip col).filter (·.1)).length := List.length_map _ _
    _ ≤ (mask.zip col).length := List.length_filter_le _ _
    _ ≤ mask.length := by rw [List.length_zip]; exact min_le_left _ _

lemma applyMask_replicate_true : ∀ (col : List Cell),
    applyMask (List.replicate col.length true) col = col
  | [] => rfl
  | c :: cs => by
    rw [List.length_cons, List.replicate_succ, applyMask_cons, if_pos rfl,
      applyMask_replicate_true cs]

lemma dm_mask_length (drop_missing : String) (y0 : List Cell)
    (xCols : List (String × List Cell)) (n : ℕ) :
    (dm_mask drop_missing y0 xCols n).length = n := by
  unfold dm_mask
  split_ifs <;> simp

lemma DF.col?_mem {df : DF} {name : String} {l : List Cell}
    (h : df.col? name = some l) : ∃ p ∈ df.cols, p.2 = l := by
  unfold DF.col? at h
  cases hf : df.cols.find? (fun c => c.1 == name) with
  | none => rw [hf] at h; simp at h
  | some p =>
    rw [hf] at h
    simp only [Option.map_some', Option.some.injEq] at h
    exact ⟨p, List.mem_of_find?_eq_some hf, h⟩

lemma DF.col_length {df : DF} {name : String} {n : ℕ}
    (hrect : ∀ p ∈ df.cols, p.2.length = n) (h : (df.col? name).isSome = true) :
    ((df.col? name).getD []).length = n := by
  obtain ⟨l, hl⟩ := Option.isSome_iff_exists.mp h
  obtain ⟨p, hp, hpl⟩ := DF.col?_mem hl
  rw [hl]
  simpa [hpl] using hrect p hp

lemma infer_covariate_types_mem {parse : String → Option ℚ} {work : DF} :
    ∀ {covariates fc fn nums cats : List String},
      infer_covariate_types parse work covariates fc fn = .ok (nums, cats) →
      (∀ x ∈ nums, x ∈ covariates) ∧ (∀ x ∈ cats, x ∈ covariates) := by
  intro covariates
  induction covariates with
  | nil =>
    intro fc fn nums cats h
    simp only [infer_covariate_types, Except.ok.injEq, Prod.mk.injEq] at h
    obtain ⟨h1, h2⟩ := h
    subst h1
    subst h2
    simp
  | cons c rest ih =>
    intro fc fn nums cats h
    simp only [infer_covariate_types] at h
    by_cases hforce : (fn.contains c && fc.contains c) = true
    · rw [if_pos hforce] at h
      exact absurd h (by simp)
    · rw [if_neg hforce] at h
      cases hrec : infer_covariate_types parse work rest fc fn with
      | error e =>
        rw [hrec] at h
        exact absurd h (by simp)
      | ok p =>
        obtain ⟨ns, cs⟩ := p
        rw [hrec] at h
        obtain ⟨hns, hcs⟩ := ih hrec
        simp only [Except.ok.injEq] at h
        by_cases htag : covariateIsNumeric parse work c fc fn = true
        · rw [if_pos htag] at h
          simp only [Prod.mk.injEq] at h
          obtain ⟨h1, h2⟩ := h
          subst h1
          subst h2
          refine ⟨fun x hx => ?_, fun x hx => List.mem_cons_of_mem _ (hcs x hx)⟩
          rcases List.mem_cons.mp hx with rfl | hx'
          · exact List.mem_cons_self _ _
          · exact List.mem_cons_of_mem _ (hns x hx')
        · rw [if_neg htag] at h
          simp only [Prod.mk.injEq] at h
          obtain ⟨h1, h2⟩ := h
          subst h1
          subst h2
          refine ⟨fun x hx => List.mem_cons_of_mem _ (hns x hx), fun x hx => ?_⟩
          rcases List.mem_cons.mp hx with rfl | hx'
          · exact List.mem_cons_self _ _
          · exact List.mem_cons_of_mem _ (hcs x hx')

lemma dummyCols_length {fmt : ℚ → String} {name : String} {col : List Cell}
    {p : String × List Cell} (hp : p ∈ dummyCols fmt name col) :
    p.2.length = col.length := by
  unfold dummyCols at hp
  simp only [List.mem_map] at hp
  obtain ⟨lvl, _, rfl⟩ := hp
  simp [dummyCol]

lemma dm_pre_matrix_length {parse : String → Option ℚ} {fmt : ℚ → String} {df : DF}
    {group : String} {numeric_covs cat_covs : List String} {add_intercept : Bool}
    {n : ℕ}
    (hrect : ∀ p ∈ df.cols, p.2.length = n)
    (hg : (df.col? group).isSome = true)
    (hnum : ∀ c ∈ numeric_covs, (df.col? c).isSome = true)
    (hcat : ∀ c ∈ cat_covs, (df.col? c).isSome = true) :
    ∀ p ∈ dm_pre_matrix parse fmt df group numeric_covs cat_covs add_intercept n,
      p.2.length = n := by
  intro p hp
  unfold dm_pre_matrix at hp
  simp only [List.mem_map] at hp
  obtain ⟨q, hq, rfl⟩ := hp
  rw [List.length_map]
  have hbase : q = (group, ((df.col? group).getD []).map (coerceCell parse)) ∨
      (∃ c ∈ numeric_covs, q = (c, ((df.col? c).getD []).map (coerceCell parse))) ∨
      (∃ c ∈ cat_covs, q ∈ dummyCols fmt c ((df.col? c).getD [])) ∨
      q = ("const", List.replicate n (Cell.num 1)) := by
    cases add_intercept
    · simp only [Bool.false_eq_true, if_false, List.mem_cons, List.mem_append,
        List.mem_map, List.mem_flatMap] at hq
      rcases hq with h | ⟨⟨c, hc, rfl⟩ | ⟨c, hc, hdq⟩⟩
      · exact Or.inl h
      · exact Or.inr (Or.inl ⟨c, hc, rfl⟩)
      · exact Or.inr (Or.inr (Or.inl ⟨c, hc, hdq⟩))
    · simp only [if_true, List.mem_cons, List.mem_append, List.mem_map,
        List.mem_flatMap] at hq
      rcases hq with h | h | ⟨⟨c, hc, rfl⟩ | ⟨c, hc, hdq⟩⟩
      · exact Or.inr (Or.inr (Or.inr h))
      · exact Or.inl h
      · exact Or.inr (Or.inl ⟨c, hc, rfl⟩)
      · exact Or.inr (Or.inr (Or.inl ⟨c, hc, hdq⟩))
  rcases hbase with rfl | ⟨c, hc, rfl⟩ | ⟨c, hc, hdq⟩ | rfl
  · rw [List.length_map]
    exact DF.col_length hrect hg
  · rw [List.length_map]
    exact DF.col_length hrect (hnum c hc)
  · rw [dummyCols_length hdq]
    exact DF.col_length hrect (hcat c hc)
  · simp

lemma dm_pre_matrix_names (parse : String → Option ℚ) (fmt : ℚ → String) (df : DF)
    (group : String) (numeric_covs cat_covs : List String) (add_intercept : Bool)
    (n : ℕ) :
    (dm_pre_matrix parse fmt df group numeric_covs cat_covs add_intercept n).map (·.1) =
      (if add_intercept then ["const"] else []) ++
        group :: (numeric_covs ++ cat_covs.flatMap fun c =>
          ((levelsOf fmt ((df.col? c).getD [])).drop 1).map fun lvl =>
            c ++ "_" ++ lvl) := by
  unfold dm_pre_matrix dummyCols
  cases add_intercept <;>
    simp [List.map_map, Function.comp_def, List.map_flatMap]

/-- C10: for every call of `build_design_matrix` that returns (columns
present, inference successful, valid drop policy, rectangular frame), the
metadata satisfies `n_before = n_used + n_dropped`, `n_used` equals the
number of rows of both the outcome series `y` and every column of the
feature matrix `X`, and `y` and all columns of `X` are selections by one and
the same row mask of full-length (`n_before`) columns — under every drop
policy, including `"none"` (all-true mask). -/
theorem claim_C10 (parse : String → Option ℚ) (fmt : ℚ → String) (df : DF)
    (outcome_col group_indicator_col : String) (covariates : List String)
    (drop_missing : String) (add_intercept : Bool) (fc fn : List String)
    (oc : List Cell) (n : ℕ) (nums cats : List String) :
    df.col? outcome_col = some oc →
    oc.length = n →
    (∀ p ∈ df.cols, p.2.length = n) →
    (df.col? group_indicator_col).isSome = true →
    (∀ c ∈ covariates, (df.col? c).isSome = true) →
    infer_covariate_types parse df covariates fc fn = .ok (nums, cats) →
    (drop_missing = "any" ∨ drop_missing = "outcome" ∨ drop_missing = "covariates" ∨
      drop_missing = "none") →
    ∃ y X meta mask,
      build_design_matrix parse fmt df outcome_col group_indicator_col covariates
          drop_missing add_intercept fc fn = .ok (y, X, meta) ∧
      meta.n_before = meta.n_used + meta.n_dropped ∧
      meta.n_used = y.length ∧
      (∀ p ∈ X, p.2.length = y.length) ∧
      mask.length = meta.n_before ∧
      y = applyMask mask (oc.map (coerceCell parse)) ∧
      (∀ p ∈ X, ∃ pre : List Cell, pre.length = meta.n_before ∧
        p.2 = applyMask mask pre) := by
  intro ho hoc hrect hg hcov hinf hdrop
  subst hoc
  have hanyf : (covariates.any fun c => (df.col? c).isNone) = false := by
    rw [List.any_eq_false]
    intro c hc
    obtain ⟨v, hv⟩ := Option.isSome_iff_exists.mp (hcov c hc)
    simp [hv]
  have hnum : ∀ c ∈ nums, (df.col? c).isSome = true :=
    fun c hc => hcov c ((infer_covariate_types_mem hinf).1 c hc)
  have hcat : ∀ c ∈ cats, (df.col? c).isSome = true :=
    fun c hc => hcov c ((infer_covariate_types_mem hinf).2 c hc)
  have hlen : ∀ p ∈ dm_pre_matrix parse fmt df group_indicator_col nums cats
      add_intercept oc.length, p.2.length = oc.length :=
    dm_pre_matrix_length hrect hg hnum hcat
  have hgetd : (df.col? outcome_col).getD [] = oc := by rw [ho]; rfl
  have hy0len : (oc.map (coerceCell parse)).length = oc.length := List.length_map _ _
  simp only [build_design_matrix, ho, Option.isNone_some, Bool.false_eq_true,
    if_false, hanyf, hinf, hgetd, Option.getD_some,
    (by obtain ⟨v, hv⟩ := Option.isSome_iff_exists.mp hg; simp [hv] :
      (df.col? group_indicator_col).isNone = false),
    if_neg (not_not_intro hdrop), List.length_map]
  by_cases hnone : drop_missing = "none"
  · rw [if_pos hnone]
    refine ⟨_, _, _, List.replicate oc.length true, rfl, ?_, ?_, ?_, ?_, ?_, ?_⟩
    · dsimp only
      omega
    · exact hy0len.symm
    · intro p hp
      rw [hy0len]
      exact hlen p hp
    · dsimp only
      simp
    · rw [← hy0len]
      exact (applyMask_replicate_true _).symm
    · intro p hp
      refine ⟨p.2, hlen p hp, ?_⟩
      rw [← hlen p hp]
      exact (applyMask_replicate_true _).symm
  · rw [if_neg hnone]
    have hmlen : (dm_mask drop_missing (List.map (coerceCell parse) oc)
        (dm_pre_matrix parse fmt df group_indicator_col nums cats add_intercept
          oc.length) oc.length).length = oc.length :=
      dm_mask_length _ _ _ _
    refine ⟨_, _, _, _, rfl, ?_, rfl, ?_, hmlen, rfl, ?_⟩
    · dsimp only
      have hle := applyMask_length_le (dm_mask drop_missing
        (List.map (coerceCell parse) oc)
        (dm_pre_matrix parse fmt df group_indicator_col nums cats add_intercept
          oc.length) oc.length) (List.map (coerceCell parse) oc)
      rw [hmlen] at hle
      omega
    · intro p hp
      simp only [List.mem_map] at hp
      obtain ⟨q, hq, rfl⟩ := hp
      have h1 : (dm_mask drop_missing (List.map (coerceCell parse) oc)
          (dm_pre_matrix parse fmt df group_indicator_col nums cats add_intercept
            oc.length) oc.length).length ≤ q.2.length := by
        rw [hmlen, hlen q hq]
      have h2 : (dm_mask drop_missing (List.map (coerceCell parse) oc)
          (dm_pre_matrix parse fmt df group_indicator_col nums cats add_intercept
            oc.length) oc.length).length ≤ (List.map (coerceCell parse) oc).length := by
        rw [hmlen, hy0len]
      dsimp only
      rw [applyMask_length h1, applyMask_length h2]
    · intro p hp
      simp only [List.mem_map] at hp
      obtain ⟨q, hq, rfl⟩ := hp
      exact ⟨q.2, hlen q hq, rfl⟩

/-- C10 witness: `claim_C10` instantiated on a concrete four-column frame
with a numeric and a categorical covariate under `drop_missing="any"`. -/
theorem claim_C10_witness :
    ∃ y X meta mask,
      build_design_matrix (fun _ => none) (fun _ => "nan")
          ⟨[("outcome", [Cell.num 0, Cell.num 1]), ("group", [Cell.num 0, Cell.num 1]),
            ("age", [Cell.num 30, Cell.num 40]),
            ("county", [Cell.str "A", Cell.str "B"])]⟩
          "outcome" "group" ["age", "county"] "any" true [] [] = .ok (y, X, meta) ∧
      meta.n_before = meta.n_used + meta.n_dropped ∧
      meta.n_used = y.length ∧
      (∀ p ∈ X, p.2.length = y.length) ∧
      mask.length = meta.n_before ∧
      y = applyMask mask ([Cell.num 0, Cell.num 1].map (coerceCell fun _ => none)) ∧
      (∀ p ∈ X, ∃ pre : List Cell, pre.length = meta.n_before ∧
        p.2 = applyMask mask pre) :=
  claim_C10 (fun _ => none) (fun _ => "nan")
    ⟨[("outcome", [Cell.num 0, Cell.num 1]), ("group", [Cell.num 0, Cell.num 1]),
      ("age", [Cell.num 30, Cell.num 40]),
      ("county", [Cell.str "A", Cell.str "B"])]⟩
    "outcome" "group" ["age", "county"] "any" true [] []
    [Cell.num 0, Cell.num 1] 2 ["age"] ["county"]
    rfl rfl (by decide) rfl (by decide) rfl (Or.inl rfl)

/-- C8 (amended): for every valid call of `build_design_matrix`, the feature
matrix's columns appear in this order: the `const` intercept column FIRST
(when `add_intercept` is enabled — `sm.add_constant` prepends by default),
then the group indicator, then the numeric covariates, then the one-hot
columns of the categorical covariates. -/
theorem claim_C8 (parse : String → Option ℚ) (fmt : ℚ → String) (df : DF)
    (outcome_col group_indicator_col : String) (covariates : List String)
    (drop_missing : String) (add_intercept : Bool) (fc fn : List String)
    (oc : List Cell) (nums cats : List String) :
    df.col? outcome_col = some oc →
    (df.col? group_indicator_col).isSome = true →
    (∀ c ∈ covariates, (df.col? c).isSome = true) →
    infer_covariate_types parse df covariates fc fn = .ok (nums, cats) →
    (drop_missing = "any" ∨ drop_missing = "outcome" ∨ drop_missing = "covariates" ∨
      drop_missing = "none") →
    ∃ y X meta,
      build_design_matrix parse fmt df outcome_col group_indicator_col covariates
          drop_missing add_intercept fc fn = .ok (y, X, meta) ∧
      X.map (·.1) = meta.terms ∧
      meta.terms =
        (if add_intercept then ["const"] else []) ++
          group_indicator_col :: (nums ++ cats.flatMap fun c =>
            ((levelsOf fmt ((df.col? c).getD [])).drop 1).map fun lvl =>
              c ++ "_" ++ lvl) := by
  intro ho hg hcov hinf hdrop
  have hanyf : (covariates.any fun c => (df.col? c).isNone) = false := by
    rw [List.any_eq_false]
    intro c hc
    obtain ⟨v, hv⟩ := Option.isSome_iff_exists.mp (hcov c hc)
    simp [hv]
  have hgetd : (df.col? outcome_col).getD [] = oc := by rw [ho]; rfl
  simp only [build_design_matrix, ho, Option.isNone_some, Bool.false_eq_true,
    if_false, hanyf, hinf, hgetd, Option.getD_some,
    (by obtain ⟨v, hv⟩ := Option.isSome_iff_exists.mp hg; simp [hv] :
      (df.col? group_indicator_col).isNone = false),
    if_neg (not_not_intro hdrop)]
  by_cases hnone : drop_missing = "none"
  · rw [if_pos hnone]
    exact ⟨_, _, _, rfl, rfl, dm_pre_matrix_names _ _ _ _ _ _ _ _⟩
  · rw [if_neg hnone]
    refine ⟨_, _, _, rfl, ?_, dm_pre_matrix_names _ _ _ _ _ _ _ _⟩
    dsimp only
    rw [List.map_map]
    rfl

/-- C8 counterexample: on a concrete frame with one numeric and one
categorical covariate and `add_intercept=True`, the returned column order is
`["const", "group", "age", "county_B"]` — the intercept column is first, not
last as the claim states. -/
theorem claim_C8_counterexample :
    (build_design_matrix (fun _ => none) (fun _ => "nan")
        ⟨[("outcome", [Cell.num 0, Cell.num 1]), ("group", [Cell.num 0, Cell.num 1]),
          ("age", [Cell.num 30, Cell.num 40]),
          ("county", [Cell.str "A", Cell.str "B"])]⟩
        "outcome" "group" ["age", "county"] "any" true [] []).map
      (fun r => r.2.2.terms) = .ok ["const", "group", "age", "county_B"] ∧
    ["const", "group", "age", "county_B"] ≠ ["group", "age", "county_B", "const"] := by
  constructor
  · rfl
  · decide

/-- C8 witness: `claim_C8` instantiated on the same concrete frame. -/
theorem claim_C8_witness :
    ∃ y X meta,
      build_design_matrix (fun _ => none) (fun _ => "nan")
          ⟨[("outcome", [Cell.num 0, Cell.num 1]), ("group", [Cell.num 0, Cell.num 1]),
            ("age", [Cell.num 30, Cell.num 40]),
            ("county", [Cell.str "A", Cell.str "B"])]⟩
          "outcome" "group" ["age", "county"] "any" true [] [] = .ok (y, X, meta) ∧
      X.map (·.1) = meta.terms ∧
      meta.terms =
        (if true then ["const"] else []) ++
          "group" :: (["age"] ++ ["county"].flatMap fun c =>
            ((levelsOf (fun _ => "nan")
                ((DF.col? ⟨[("outcome", [Cell.num 0, Cell.num 1]),
                    ("group", [Cell.num 0, Cell.num 1]),
                    ("age", [Cell.num 30, Cell.num 40]),
                    ("county", [Cell.str "A", Cell.str "B"])]⟩ c).getD [])).drop 1).map
              fun lvl => c ++ "_" ++ lvl) :=
  claim_C8 (fun _ => none) (fun _ => "nan")
    ⟨[("outcome", [Cell.num 0, Cell.num 1]), ("group", [Cell.num 0, Cell.num 1]),
      ("age", [Cell.num 30, Cell.num 40]),
      ("county", [Cell.str "A", Cell.str "B"])]⟩
    "outcome" "group" ["age", "county"] "any" true [] []
    [Cell.num 0, Cell.num 1] ["age"] ["county"]
    rfl rfl (by decide) rfl (Or.inl rfl)

/-! ## Claims C6 and C7: `fit_logit` and `_apply_robust_covariance` -/

/-- A fitted statsmodels result as consumed by `fit_logit`: the term index,
the coefficient per term, and (possibly NaN, modelled as `none`) p-values and
coefficient-scale confidence bounds.  The iterative MLE solver is external
library code; its results enter the embedding as values of this type. -/
structure SMResult where
  terms : List String
  coef : String → ℝ
  pval : String → Option ℝ
  ciLow : String → Option ℝ
  ciHigh : String → Option ℝ

/-- Exceptions from `model.fit`: `PerfectSeparationError` is caught by
`fit_logit`; anything else propagates. -/
inductive FitErr where
  | perfectSeparation
  | otherErr

/-- Version-dependent robust-covariance capabilities of the statistics
library, as probed by `_apply_robust_covariance`: the public
`get_robustcov_results` attribute, the private `_get_robustcov_results`
attribute (`none` when the attribute is absent; a present function returning
`none` models a `None` return, which leaves `res` in place), and refitting
with `model.fit(cov_type=...)` whose `.error` models a `TypeError`. -/
structure RobustEnv where
  publicApi : Option (SMResult → Option SMResult)
  privateApi : Option (SMResult → Option SMResult)
  refit : Except Unit (Option SMResult)

/-- `_apply_robust_covariance` from `bias_analysis/logistic.py`: try the
public API, then the private API, then a refit with `cov_type`; when the
refit raises `TypeError` (no robust-covariance entry point is available) the
original result is returned unchanged. -/
def apply_robust_covariance (env : RobustEnv) (res : SMResult) : SMResult :=
  match env.publicApi with
  | some f => (f res).getD res
  | none =>
    match env.privateApi with
    | some f => (f res).getD res
    | none =>
      match env.refit with
      | .ok out => out.getD res
      | .error _ => res

/-- One output row of `fit_logit` per model term. -/
structure TermRow where
  term : String
  coef : ℝ
  orv : ℝ
  ci_low : Option ℝ
  ci_high : Option ℝ
  p_value : Option ℝ

/-- The per-term row construction of `fit_logit`: exponentiate the
coefficient and the CI bounds (NaN propagates through as NaN), keep the
p-value. -/
noncomputable def logitRows (terms : List String) (coef : String → ℝ)
    (pval ciL ciH : String → Option ℝ) : List TermRow :=
  terms.map fun t =>
    { term := t, coef := coef t, orv := Real.exp (coef t),
      ci_low := (ciL t).map Real.exp, ci_high := (ciH t).map Real.exp,
      p_value := pval t }

/-- Output of `fit_logit` (the design-matrix metadata is produced by
`build_design_matrix` and not repeated here). -/
structure FitOutput where
  used_regularized : Bool
  results : List TermRow

/-- `fit_logit` from `bias_analysis/logistic.py` after the design matrix has
been built: `fit` is the outcome of the external unregularized MLE solver
(`model.fit`), `env` the robust-covariance capabilities, and
`regTerms`/`regCoef` the coefficient index and values of the external
L1-regularized solver (`model.fit_regularized(method="l1", alpha=1e-6)`)
used as fallback.  On success, robust covariance is applied (when requested)
before extracting p-values and confidence bounds; on
`PerfectSeparationError` the regularized coefficients are reported with
`used_regularized = True` and NaN p-values and CI bounds; any other solver
error propagates. -/
noncomputable def fit_logit (fit : Except FitErr SMResult) (env : RobustEnv) (robust_se : Bool)
    (regTerms : List String) (regCoef : String → ℝ) : Except FitErr FitOutput :=
  match fit with
  | .ok res0 =>
    let res := if robust_se then apply_robust_covariance env res0 else res0
    .ok { used_regularized := false,
          results := logitRows res.terms res.coef res.pval res.ciLow res.ciHigh }
  | .error .perfectSeparation =>
    .ok { used_regularized := true,
          results := logitRows regTerms regCoef (fun _ => none) (fun _ => none)
            (fun _ => none) }
  | .error e => .error e

/-- C6: when unregularized fitting fails with perfect separation, `fit_logit`
reports the L1-regularized refit's coefficients with `used_regularized =
True`, NaN for every term's exponentiated CI bounds and p-value, and the
coefficient and exponentiated coefficient present for every term. -/
theorem claim_C6 (env : RobustEnv) (robust_se : Bool) (regTerms : List String)
    (regCoef : String → ℝ) :
    ∃ out, fit_logit (.error .perfectSeparation) env robust_se regTerms regCoef =
        .ok out ∧
      out.used_regularized = true ∧
      out.results.map (·.term) = regTerms ∧
      (∀ t ∈ regTerms, ∃ row ∈ out.results, row.term = t ∧ row.coef = regCoef t) ∧
      ∀ row ∈ out.results, row.ci_low = none ∧ row.ci_high = none ∧
        row.p_value = none ∧ row.orv = Real.exp row.coef := by
  refine ⟨_, rfl, rfl, ?_, ?_, ?_⟩
  · simp [logitRows, List.map_map, Function.comp_def]
  · intro t ht
    refine ⟨⟨t, regCoef t, Real.exp (regCoef t), none, none, none⟩, ?_, rfl, rfl⟩
    simp only [logitRows, List.mem_map]
    exact ⟨t, ht, rfl⟩
  · intro row hrow
    simp only [logitRows, List.mem_map] at hrow
    obtain ⟨t, _, rfl⟩ := hrow
    exact ⟨rfl, rfl, rfl, rfl⟩

/-- C6 witness: `claim_C6` at a concrete two-term regularized fit. -/
theorem claim_C6_witness :
    ∃ out, fit_logit (.error .perfectSeparation) ⟨none, none, .error ()⟩ true
        ["const", "group"] (fun _ => 1) = .ok out ∧
      out.used_regularized = true ∧
      out.results.map (·.term) = ["const", "group"] ∧
      (∀ t ∈ ["const", "group"], ∃ row ∈ out.results, row.term = t ∧
        row.coef = (fun _ => (1 : ℝ)) t) ∧
      ∀ row ∈ out.results, row.ci_low = none ∧ row.ci_high = none ∧
        row.p_value = none ∧ row.orv = Real.exp row.coef :=
  claim_C6 ⟨none, none, .error ()⟩ true ["const", "group"] (fun _ => 1)

/-- C7 (amended): when unregularized fitting succeeds and robust standard
errors are requested, `fit_logit` extracts CI bounds and p-values from the
result of `_apply_robust_covariance` (the HC1 recomputation hook); but when
the statistics library exposes no robust-covariance entry point (no public
API, no private API, and the refit raises `TypeError`),
`_apply_robust_covariance` silently returns the original non-robust result
unchanged — the call does NOT fail loudly. -/
theorem claim_C7 (fitres : SMResult) (env : RobustEnv) (regTerms : List String)
    (regCoef : String → ℝ) :
    (fit_logit (.ok fitres) env true regTerms regCoef =
      .ok ⟨false,
        logitRows (apply_robust_covariance env fitres).terms
          (apply_robust_covariance env fitres).coef
          (apply_robust_covariance env fitres).pval
          (apply_robust_covariance env fitres).ciLow
          (apply_robust_covariance env fitres).ciHigh⟩) ∧
    (env.publicApi = none → env.privateApi = none → env.refit = .error () →
      apply_robust_covariance env fitres = fitres) := by
  constructor
  · simp [fit_logit]
  · intro h1 h2 h3
    simp [apply_robust_covariance, h1, h2, h3]

/-- C7 counterexample: with no robust-covariance entry point at all (public
and private attributes absent, refit raising `TypeError`), a robust-requested
`fit_logit` call returns `.ok` with the unmodified non-robust statistics
instead of raising. -/
theorem claim_C7_counterexample :
    fit_logit
        (.ok ⟨["group"], fun _ => 0, fun _ => some (1 / 2), fun _ => some (-1),
          fun _ => some 1⟩)
        ⟨none, none, .error ()⟩ true [] (fun _ => 0) =
      .ok ⟨false,
        logitRows ["group"] (fun _ => (0 : ℝ)) (fun _ => some (1 / 2))
          (fun _ => some (-1)) (fun _ => some 1)⟩ := by
  rfl

/-- C7 witness: `claim_C7` at a concrete fitted result and a concrete
no-entry-point environment. -/
theorem claim_C7_witness :
    (fit_logit
        (.ok ⟨["g"], fun _ => 1, fun _ => none, fun _ => none, fun _ => none⟩)
        ⟨none, none, .error ()⟩ true [] (fun _ => 0) =
      .ok ⟨false,
        logitRows
          (apply_robust_covariance ⟨none, none, .error ()⟩
            ⟨["g"], fun _ => 1, fun _ => none, fun _ => none, fun _ => none⟩).terms
          (apply_robust_covariance ⟨none, none, .error ()⟩
            ⟨["g"], fun _ => 1, fun _ => none, fun _ => none, fun _ => none⟩).coef
          (apply_robust_covariance ⟨none, none, .error ()⟩
            ⟨["g"], fun _ => 1, fun _ => none, fun _ => none, fun _ => none⟩).pval
          (apply_robust_covariance ⟨none, none, .error ()⟩
            ⟨["g"], fun _ => 1, fun _ => none, fun _ => none, fun _ => none⟩).ciLow
          (apply_robust_covariance ⟨none, none, .error ()⟩
            ⟨["g"], fun _ => 1, fun _ => none, fun _ => none, fun _ => none⟩).ciHigh⟩) ∧
    ((⟨none, none, .error ()⟩ : RobustEnv).publicApi = none →
      (⟨none, none, .error ()⟩ : RobustEnv).privateApi = none →
      (⟨none, none, .error ()⟩ : RobustEnv).refit = .error () →
      apply_robust_covariance ⟨none, none, .error ()⟩
          ⟨["g"], fun _ => 1, fun _ => none, fun _ => none, fun _ => none⟩ =
        ⟨["g"], fun _ => 1, fun _ => none, fun _ => none, fun _ => none⟩) :=
  claim_C7 ⟨["g"], fun _ => 1, fun _ => none, fun _ => none, fun _ => none⟩
    ⟨none, none, .error ()⟩ [] (fun _ => 0)
